import Mathlib

/-!
# Verification of the `ebrains_dataproxy_sync` change-detection and locked-sync engine

Shallow embedding of `ebrains_dataproxy_sync/hash/hash.py` and
`ebrains_dataproxy_sync/sync/dataproxy.py` (Python 3, `python_requires>=3.7`).

Conventions of the embedding:

* A directory tree on disk is an `FSTree`: a file holds its raw bytes
  (represented as a `String` of byte characters), a directory holds its
  children as a `(name, subtree)` association list whose *list order* models
  the order in which `os.listdir` happens to enumerate the children.
* `hashlib.md5(...).hexdigest()` on a byte string is abstracted by a digest
  parameter `md5hex : String → String`; none of the verified properties
  depend on the internals of MD5, only on it being a function of the bytes.
  Python 3's `hashlib` accepts `bytes` and raises
  `TypeError: Strings must be encoded before hashing` on `str`; that
  distinction is kept by tagging values with `PyVal`.
* Python exceptions are `Except PyErr`; an uncaught exception aborts the
  computation exactly where Python would raise it.
-/

/-- A Python exception, as observed by the claims. -/
inductive PyErr where
  /-- `TypeError`, e.g. from `hashlib.md5` applied to `str`. -/
  | typeError (msg : String)
  /-- `ebrains_drive.exceptions.DoesNotExist` escaping uncaught. -/
  | doesNotExist (msg : String)
  /-- `SyncLocked` from `ebrains_dataproxy_sync.exceptions`. -/
  | syncLocked (msg : String)
  /-- `FileNotFoundError` from `os.listdir` on a missing path. -/
  | fileNotFound (msg : String)
  /-- `NotADirectoryError` from `os.listdir` on a file. -/
  | notADirectory (msg : String)
  /-- A failing `assert` statement. -/
  | assertionError (msg : String)
  /-- `ValueError`, e.g. from `PurePath.relative_to`. -/
  | valueError (msg : String)
  deriving DecidableEq, Repr

/-- A value passed to `hashlib.md5`: Python 3 distinguishes `bytes`
(accepted) from `str` (rejected with a `TypeError`). -/
inductive PyVal where
  | bytes (s : String)
  | str (s : String)
  deriving DecidableEq, Repr

/-- `hashlib.md5(v).hexdigest()`: returns the digest of a byte string and
raises on a `str` argument, as Python 3 does. -/
def md5_hexdigest (md5hex : String → String) : PyVal → Except PyErr String
  | .bytes s => .ok (md5hex s)
  | .str _ => .error (.typeError "Strings must be encoded before hashing")

/-- A local filesystem subtree. Directory children are kept in
`os.listdir` enumeration order; `hash_fn` itself sorts them. -/
inductive FSTree where
  | file (content : String)
  | dir (children : List (String × FSTree))

/-- `path.is_dir()` on an existing path. -/
def FSTree.isDir : FSTree → Bool
  | .file _ => false
  | .dir _ => true

/-- `path.is_file()` on an existing path. -/
def FSTree.isFile : FSTree → Bool
  | .file _ => true
  | .dir _ => false

/-- A POSIX-absolute path: begins with `'/'`. -/
def isAbsPath (p : String) : Bool := p.toList.head? = some '/'

/-- `pathlib` path join `Path(a) / b` (POSIX): an absolute second segment
replaces the first, and a `"."` or empty first segment contributes no
component. -/
def pyPathJoin (a b : String) : String :=
  if isAbsPath b then b
  else if a = "." ∨ a = "" then b
  else a ++ "/" ++ b

/-- `MD5_HASH_FILE = "md5.hash"`, the reserved manifest filename
(`hash/hash.py`). -/
def MD5_HASH_FILE : String := "md5.hash"

/-- `ignore_hash(path)` from `hash/hash.py`: `MD5_HASH_FILE in str(path)`,
a substring test on the rendered path. -/
def ignore_hash (path : String) : Bool :=
  decide (MD5_HASH_FILE.toList <:+: path.toList)

/-- Comparison used to model `sorted(os.listdir(path))` acting on the
`(name, subtree)` pairs of a directory: compare by name. -/
def nameLE (a b : String × FSTree) : Prop := a.1 ≤ b.1

instance : DecidableRel nameLE := fun a b => by
  unfold nameLE; infer_instance

/-- `sorted(os.listdir(path))`, carried out on the child pairs (each name
keeps its subtree alongside). -/
def sortChildren (cs : List (String × FSTree)) : List (String × FSTree) :=
  cs.insertionSort nameLE

theorem sizeOf_of_perm {α : Type _} [SizeOf α] {l l' : List α} (h : l.Perm l') :
    sizeOf l = sizeOf l' := by
  induction h with
  | nil => rfl
  | cons x _ ih => simp [ih]
  | swap x y l => simp; omega
  | trans _ _ ih₁ ih₂ => omega

theorem sizeOf_sortChildren (cs : List (String × FSTree)) :
    sizeOf (sortChildren cs) = sizeOf cs :=
  sizeOf_of_perm (List.perm_insertionSort _ _)

mutual

/-- `hash_fn(path, filter_fn)` from `hash/hash.py`.

* file: `md5(fp.read()).hexdigest()`;
* directory: iterate `sorted(os.listdir(path))`; skip a child when
  `filter_fn is not None and not filter_fn(path_to_file)`; recurse; when
  the child is itself a directory, re-digest its manifest text with
  `md5(hashed_val).hexdigest()` — `hashed_val` being a `str`, Python 3
  raises a `TypeError` there; append `f"{str(path_to_file)}\t{hashed_val}\n"`.

`path` is the path string the caller used (records render it verbatim);
`t` is the subtree the filesystem holds at that path. -/
def hash_fn (md5hex : String → String) (filter_fn : Option (String → Bool))
    (path : String) (t : FSTree) : Except PyErr String :=
  match t with
  | .file content => md5_hexdigest md5hex (.bytes content)
  | .dir children => hashChildren md5hex filter_fn path (sortChildren children)
termination_by sizeOf t
decreasing_by
  all_goals simp [sizeOf_sortChildren]

/-- The `for f in sorted(os.listdir(path))` loop body of `hash_fn`,
processing the already-sorted children in order. -/
def hashChildren (md5hex : String → String) (filter_fn : Option (String → Bool))
    (path : String) (cs : List (String × FSTree)) : Except PyErr String :=
  match cs with
  | [] => .ok ""
  | (name, child) :: rest =>
    let path_to_file := pyPathJoin path name
    if (match filter_fn with | some f => !(f path_to_file) | none => false) then
      hashChildren md5hex filter_fn path rest
    else do
      let hashed_val ← hash_fn md5hex filter_fn path_to_file child
      let hashed_val ←
        if child.isDir then md5_hexdigest md5hex (.str hashed_val)
        else pure hashed_val
      let restOut ← hashChildren md5hex filter_fn path rest
      pure (path_to_file ++ "\t" ++ hashed_val ++ "\n" ++ restOut)
termination_by sizeOf cs
decreasing_by
  all_goals simp
  all_goals omega

end

/-!
## Modelling `hash_dir`

`hash_dir` reads and writes the real filesystem, so it is embedded against a
*world*: an `FSTree` whose root plays the part of the filesystem root `/`,
together with the process working directory `cwd` (an absolute path string).
Python resolves every relative path against the working directory; that
resolution — the crux of the `hash_dir(sub_dir)` recursion — is modelled by
`resolve`.
-/

/-- Split a path string into its `/`-separated non-empty components. -/
def splitAux : List Char → List Char → List String
  | [], acc => [String.mk acc.reverse]
  | c :: rest, acc =>
    if c = '/' then String.mk acc.reverse :: splitAux rest []
    else splitAux rest (c :: acc)

/-- Path components of a POSIX path string (empty components dropped, so
absolute and relative spellings both yield their segment list). -/
def splitPath (s : String) : List String :=
  (splitAux s.toList []).filter (fun c => !(c == ""))

/-- Resolution of a possibly-relative path against the working directory,
as the OS does for every `os.listdir`/`open`/`os.rename` call. -/
def resolve (cwd p : String) : String :=
  if isAbsPath p then p else pyPathJoin cwd p

/-- Look up the subtree at a component path. A `file` hit before the last
component, or a missing name, resolves to `none`. -/
def getAt : FSTree → List String → Option FSTree
  | t, [] => some t
  | .file _, _ :: _ => none
  | .dir cs, n :: rest =>
    match cs.lookup n with
    | some t => getAt t rest
    | none => none

/-- Replace the binding of `n` in a child list (first occurrence). -/
def updateChild (cs : List (String × FSTree)) (n : String) (t : FSTree) :
    List (String × FSTree) :=
  match cs with
  | [] => []
  | (m, u) :: rest =>
    if m = n then (m, t) :: rest else (m, u) :: updateChild rest n t

/-- Write the subtree `newT` at a component path, creating the final
component if needed (as `open(path, "w")` does); `none` when an
intermediate directory is missing. -/
def setAt : FSTree → List String → FSTree → Option FSTree
  | _, [], newT => some newT
  | .file _, _ :: _, _ => none
  | .dir cs, n :: rest, newT =>
    match cs.lookup n with
    | some sub =>
      match rest with
      | [] => some (.dir (updateChild cs n newT))
      | _ =>
        match setAt sub rest newT with
        | some sub' => some (.dir (updateChild cs n sub'))
        | none => none
    | none =>
      match rest with
      | [] => some (.dir (cs ++ [(n, newT)]))
      | _ => none

/-- Remove the entry at a component path; `none` when it does not exist. -/
def removeAt : FSTree → List String → Option FSTree
  | _, [] => none
  | .file _, _ :: _ => none
  | .dir cs, [n] => some (.dir (cs.filter (fun c => !(c.1 == n))))
  | .dir cs, n :: rest =>
    match cs.lookup n with
    | some sub =>
      match removeAt sub rest with
      | some sub' => some (.dir (updateChild cs n sub'))
      | none => none
    | none => none

mutual

/-- `os.walk(top)` (top-down): the `(dirpath, dirnames)` pairs, in visit
order. The `hash_dir` loop never reads `filenames`, so they are omitted.
`os.walk` swallows listing errors by default, so a missing `top` yields
nothing. -/
def walk (path : String) : FSTree → List (String × List String)
  | .file _ => []
  | .dir cs =>
    (path, (cs.filter (fun c => c.2.isDir)).map (fun c => c.1)) ::
      walkList path cs
termination_by t => sizeOf t

/-- Walks of the directory children, in listing order. -/
def walkList (path : String) : List (String × FSTree) → List (String × List String)
  | [] => []
  | (n, t) :: rest => walk (pyPathJoin path n) t ++ walkList path rest
termination_by l => sizeOf l
decreasing_by
  all_goals simp
  all_goals omega

end

/-- One `for dirname in dirnames` iteration group of `hash_dir`'s
`os.walk` loop: hash `_dir = dirpath/dirname` with `filter_fn=ignore_hash`,
back up any existing `md5.hash` to `md5.hash.bk.<now>`, then write the
hash value to `_dir/md5.hash`. All disk accesses resolve against `cwd`. -/
def walkWriteNames (md5hex : String → String) (cwd : String) (now : Nat)
    (dirpath : String) : FSTree → List String → Except PyErr FSTree :=
  fun world names =>
    match names with
    | [] => .ok world
    | dirname :: rest => do
      let _dir := pyPathJoin dirpath dirname
      let dirComps := splitPath (resolve cwd _dir)
      let hash_val ←
        match getAt world dirComps with
        | some t => hash_fn md5hex (some ignore_hash) _dir t
        | none => .error (.fileNotFound _dir)
      let hashComps := dirComps ++ [MD5_HASH_FILE]
      let world ←
        match getAt world hashComps with
        | some old =>
          -- os.rename(_dir/md5.hash, f"{_dir/md5.hash}.bk.{now}")
          match removeAt world hashComps with
          | some w =>
            match setAt w (dirComps ++ [MD5_HASH_FILE ++ ".bk." ++ toString now]) old with
            | some w' => pure w'
            | none => .error (.fileNotFound _dir)
          | none => .error (.fileNotFound _dir)
        | none => pure world
      let world ←
        match setAt world hashComps (.file hash_val) with
        | some w => pure w
        | none => .error (.fileNotFound _dir)
      walkWriteNames md5hex cwd now dirpath world rest

/-- The whole `os.walk` write-back loop of `hash_dir`, threading the world
through each `(dirpath, dirnames)` group. (The walk listing is safely
computed up front: the loop only creates and renames plain files, which
cannot change which directories `os.walk` visits.) -/
def walkWrite (md5hex : String → String) (cwd : String) (now : Nat) :
    FSTree → List (String × List String) → Except PyErr FSTree :=
  fun world entries =>
    match entries with
    | [] => .ok world
    | (dirpath, dirnames) :: rest => do
      let world ← walkWriteNames md5hex cwd now dirpath world dirnames
      walkWrite md5hex cwd now world rest

mutual

/-- `hash_dir(directory)` from `hash/hash.py`, over a world tree and a
working directory. Note the faithfully kept slip of the source: the
recursive call is `hash_dir(sub_dir)` with the *bare child name*
(`fname` from `os.listdir`), which the OS then resolves against `cwd`,
not against `directory`. `none` means the fuel ran out (the Python
original can recurse forever when `cwd` contains a matching cycle of
names). -/
def hash_dir (md5hex : String → String) :
    Nat → FSTree → String → Nat → String → Option (Except PyErr FSTree)
  | 0, _, _, _, _ => none
  | fuel + 1, world, cwd, now, directory =>
    match getAt world (splitPath (resolve cwd directory)) with
    | none => some (.error (.fileNotFound directory))
    | some (.file _) => some (.error (.notADirectory directory))
    | some (.dir cs) =>
      let sub_directories := (cs.filter (fun c => c.2.isDir)).map (fun c => c.1)
      match hashDirFold md5hex fuel world cwd now sub_directories with
      | none => none
      | some (.error e) => some (.error e)
      | some (.ok world') =>
        let entries :=
          match getAt world' (splitPath (resolve cwd directory)) with
          | some t => walk directory t
          | none => []
        some (walkWrite md5hex cwd now world' entries)
termination_by fuel _ _ _ _ => (fuel, 0)

/-- The `for sub_dir in sub_directories: hash_dir(sub_dir)` loop. -/
def hashDirFold (md5hex : String → String) :
    Nat → FSTree → String → Nat → List String → Option (Except PyErr FSTree)
  | _, world, _, _, [] => some (.ok world)
  | fuel, world, cwd, now, d :: rest =>
    match hash_dir md5hex fuel world cwd now d with
    | none => none
    | some (.error e) => some (.error e)
    | some (.ok world') => hashDirFold md5hex fuel world' cwd now rest
termination_by fuel _ _ _ l => (fuel, l.length + 1)

end

/-!
## Modelling `sync/dataproxy.py`

The remote object store (`Bucket` from `ebrains_drive`) is an external
collaborator; it is modelled as a path → content map plus a trace of the
calls the engine makes on it. `bucket.get_file` on an absent path raises
`DoesNotExist`, which the engine catches at its three benign call sites.
Upload attempts inside the retry loop may fail; which submitted jobs
complete in a round, and whether each completed one succeeded, is decided
by an adversarial schedule (standing in for the thread pool, the network
and the 5-second timeout). Timestamps (`ctime()`) and the identity decoded
from the bearer token are passed in as opaque strings.
-/

/-- The remote bucket contents: a path → content map. -/
structure RemoteState where
  files : List (String × String)
  deriving DecidableEq, Repr

/-- `bucket.get_file(path).get_content()`; `none` models `DoesNotExist`. -/
def RemoteState.get (st : RemoteState) (p : String) : Option String :=
  st.files.lookup p

/-- `bucket.upload(..., path)`: create or replace. -/
def RemoteState.put (st : RemoteState) (p c : String) : RemoteState :=
  ⟨(p, c) :: st.files.filter (fun e => !(e.1 == p))⟩

/-- `filehandle.delete()`. -/
def RemoteState.del (st : RemoteState) (p : String) : RemoteState :=
  ⟨st.files.filter (fun e => !(e.1 == p))⟩

/-- One call made on the remote store, as recorded by a spy. A `putFail`
is an upload attempt that raised (timeout, transport or store error). -/
inductive Ev where
  | get (path : String)
  | put (path : String) (content : String)
  | putFail (path : String)
  | delete (path : String)
  deriving DecidableEq, Repr

/-- Is the event a remote write (successful or attempted `put`, or a
`delete`)? -/
def Ev.isWrite : Ev → Bool
  | .get _ => false
  | .put _ _ => true
  | .putFail _ => true
  | .delete _ => true

/-- Is the event a `delete`? -/
def Ev.isDelete : Ev → Bool
  | .delete _ => true
  | _ => false

/-- How a sync computation ended: returned, raised, or never returned
(the retry loop livelocking). -/
inductive Outcome where
  | ok
  | error (e : PyErr)
  | hung
  deriving DecidableEq, Repr

/-- `LOG_FILE = "sync.log"` (`sync/dataproxy.py`). -/
def LOG_FILE : String := "sync.log"

/-- `log_msg_tmpl = "{name}/{sub}: {timestamp}: {op}"`. -/
def log_msg_tmpl (name sub timestamp op : String) : String :=
  name ++ "/" ++ sub ++ ": " ++ timestamp ++ ": " ++ op

/-- What a `sync_context` body reports back: its outcome, the remote state
and call trace it produced, and the messages it passed to `log_msg` (in
emission order). -/
def BodyResult := Outcome × RemoteState × List Ev × List String

/-- `sync_context(bucket, remote_dir_dst, force)` from `sync/dataproxy.py`
(lines 24–92), run around a protected `body`:

1. fetch `remote_dir_dst/.lock`; if present and not `force`, raise
   `SyncLocked` with the lock content, mutating nothing;
2. write a fresh lock marker, fetch the op log (absent ⇒ empty), prepend a
   `"start sync"` record in memory;
3. run the body (its `log_msg` calls prepend records in memory);
4. `finally`: re-fetch and delete the lock marker, prepend `"end sync"`,
   and upload the accumulated log — unless the body never returned
   (`hung`), in which case the `finally` block is never reached. -/
def run_sync_context (st : RemoteState) (remote_dir_dst : String) (force : Bool)
    (name sub ts : String) (body : RemoteState → BodyResult) :
    Outcome × RemoteState × List Ev :=
  let lock_file := pyPathJoin remote_dir_dst ".lock"
  let proceed : Unit → Outcome × RemoteState × List Ev := fun _ =>
    let lockfile_content := log_msg_tmpl name sub ts "lock"
    let st1 := st.put lock_file lockfile_content
    let log_file := pyPathJoin remote_dir_dst LOG_FILE
    let log0 := (st1.get log_file).getD ""
    let tr0 := [Ev.get lock_file, Ev.put lock_file lockfile_content, Ev.get log_file]
    let log1 := log_msg_tmpl name sub ts "start sync" ++ "\n" ++ log0
    match body st1 with
    | (bout, st2, bev, bmsgs) =>
      let log2 := bmsgs.foldl (fun acc m => log_msg_tmpl name sub ts m ++ "\n" ++ acc) log1
      match bout with
      | .hung => (.hung, st2, tr0 ++ bev)
      | _ =>
        match st2.get lock_file with
        | none =>
          -- the `finally` block itself raises `DoesNotExist`, replacing
          -- the body's outcome; the log is never written back
          (.error (.doesNotExist lock_file), st2, tr0 ++ bev ++ [.get lock_file])
        | some _ =>
          let st3 := st2.del lock_file
          let log3 := log_msg_tmpl name sub ts "end sync" ++ "\n" ++ log2
          let st4 := st3.put log_file log3
          (bout, st4,
            tr0 ++ bev ++ [.get lock_file, .delete lock_file, .put log_file log3])
  match st.get lock_file with
  | some content =>
    if force then proceed ()
    else
      -- the f-string interpolates the lock content with repr quoting
      (.error (.syncLocked (remote_dir_dst ++ " is locked. '" ++ content
          ++ "' Set force=True to force write.")), st, [.get lock_file])
  | none => proceed ()

/-- One file-upload work item: `(Path(path_to_sync, file),
Path(remote_prefix, relative_path, file))` plus the bytes the upload
streams from disk. -/
structure SyncTask where
  local_path : String
  remote_path : String
  content : String
  deriving DecidableEq, Repr

/-- The fate of one submitted job in one `wait(..., FIRST_COMPLETED)`
round: still pending, completed successfully, or completed with an
exception. -/
inductive Dec where
  | pending
  | success
  | failure
  deriving DecidableEq, Repr

/-- One pass over `done ∪ pending` of a `wait` round: successful jobs
leave the pool, failed jobs are resubmitted as the identical task,
pending jobs stay. Returns the completed attempts (task, succeeded?) and
the next `remaining_jobs` pool. -/
def roundStep : List (SyncTask × Dec) → List (SyncTask × Bool) × List SyncTask
  | [] => ([], [])
  | (t, d) :: rest =>
    let (att, next) := roundStep rest
    match d with
    | .success => ((t, true) :: att, next)
    | .failure => ((t, false) :: att, t :: next)
    | .pending => (att, t :: next)

/-- Pair each pooled task with the schedule's decision for this round. -/
def zipDecs (sched : Nat → Nat → Dec) (round : Nat) (remaining : List SyncTask) :
    List (SyncTask × Dec) :=
  remaining.enum.map (fun p => (p.2, sched round p.1))

/-- The `while len(remaining_jobs) > 0` retry loop of `sync` (lines
238–252), driven by an adversarial completion schedule. Returns the
upload attempts in completion order and whether the loop exited; fuel
bounds the number of rounds we observe (a permanently failing task makes
the Python loop spin forever). -/
def uploadLoop (sched : Nat → Nat → Dec) :
    Nat → Nat → List SyncTask → List (SyncTask × Bool) × Bool
  | _, _, [] => ([], true)
  | 0, _, _ :: _ => ([], false)
  | fuel + 1, round, t :: ts =>
    let (att, next) := roundStep (zipDecs sched round (t :: ts))
    let (tr, done) := uploadLoop sched fuel (round + 1) next
    (att ++ tr, done)

/-- The file content of a tree node (used only on `file` nodes). -/
def contentOf : FSTree → String
  | .file c => c
  | .dir _ => ""

/-- Apply the successful upload attempts to the remote store, in
completion order. -/
def applyAttempts (st : RemoteState) (att : List (SyncTask × Bool)) : RemoteState :=
  att.foldl (fun s a => if a.2 then s.put a.1.remote_path a.1.content else s) st

/-- Lines 221–236: `all_files` (every immediate regular file, the reserved
manifest and its backups included — there is no exclusion) paired into
`(Path(path_to_sync, file), Path(remote_prefix, relative_path, file))`
upload tasks. -/
def levelUploads (local_children : List (String × FSTree))
    (path_to_sync relative_path remote_prefix : String) : List SyncTask :=
  (local_children.filter (fun c => c.2.isFile)).map (fun c =>
    SyncTask.mk (pyPathJoin path_to_sync c.1)
      (pyPathJoin (pyPathJoin remote_prefix relative_path) c.1)
      (contentOf c.2))

/-- The per-directory part of `sync` (lines 190–252), after the recursion
into subdirectories:

* compare the local `md5.hash` against the remote one at
  `remote_prefix / relative_path / MD5_HASH_FILE` (unless `force`):
  equal ⇒ return straight away;
* otherwise enumerate the directory's immediate files, open a
  `sync_context` on `Path(remote_prefix, path_to_sync)` — the source
  passes `path_to_sync` here, not `relative_path` — and run every upload
  to `Path(remote_prefix, relative_path, file)` through the retry loop. -/
def syncLevel (st : RemoteState) (local_children : List (String × FSTree))
    (path_to_sync relative_path remote_prefix : String) (force : Bool)
    (name sub ts : String) (fuel : Nat) (sched : Nat → Nat → Dec) :
    Outcome × RemoteState × List Ev :=
  let remote_md5_path := pyPathJoin (pyPathJoin remote_prefix relative_path) MD5_HASH_FILE
  let proceed : List Ev → Outcome × RemoteState × List Ev := fun tr0 =>
    let all_uploads := levelUploads local_children path_to_sync relative_path remote_prefix
    let (out, st', tr') := run_sync_context st (pyPathJoin remote_prefix path_to_sync)
      force name sub ts (fun st1 =>
        let (att, done) := uploadLoop sched fuel 0 all_uploads
        let st2 := applyAttempts st1 att
        let bev := att.map (fun a =>
          if a.2 then Ev.put a.1.remote_path a.1.content else Ev.putFail a.1.remote_path)
        ((if done then Outcome.ok else Outcome.hung), st2, bev, []))
    (out, st', tr0 ++ tr')
  if force then proceed []
  else
    match local_children.lookup MD5_HASH_FILE with
    | none => proceed []
    | some (.dir _) => (.error (.assertionError "md5_file.is_file()"), st, [])
    | some (.file local_md5_hash) =>
      match st.get remote_md5_path with
      | some remote_md5_hash =>
        if local_md5_hash = remote_md5_hash then (.ok, st, [.get remote_md5_path])
        else proceed [.get remote_md5_path]
      | none => proceed [.get remote_md5_path]

/-- `path_to_sync.relative_to(local_relative_to)` when the argument is
set and truthy (`pathlib` semantics: the base must be a componentwise
prefix, the result keeps the remaining components; stripping everything
yields `"."`); the identity otherwise. -/
def pyRelativeTo (p : String) (base : Option String) : Except PyErr String :=
  match base with
  | none => .ok p
  | some b =>
    let pc := splitPath p
    let bc := splitPath b
    if isAbsPath p ≠ isAbsPath b then
      .error (.valueError (p ++ " is not in the subpath of " ++ b))
    else if bc.isPrefixOf pc then
      match pc.drop bc.length with
      | [] => .ok "."
      | rest => .ok (String.intercalate "/" rest)
    else .error (.valueError (p ++ " is not in the subpath of " ++ b))

mutual

/-- `sync(bucket_name, path_to_sync, remote_prefix, local_relative_to=...,
force=..., max_workers=...)` (lines 133–252), over the world/cwd local
filesystem model and the remote store. Computes `relative_path`, handles
the single-file branch, recurses depth-first into every immediate
subdirectory, then runs this directory's own level (`syncLevel`).
Exceptions propagate and a hung retry loop never returns; `none` means
the recursion fuel ran out. -/
def sync (sched : Nat → Nat → Dec) (uploadFuel : Nat) :
    Nat → RemoteState → FSTree → String → String → String → Option String →
    Bool → String → String → String → Option (Outcome × RemoteState × List Ev)
  | 0, _, _, _, _, _, _, _, _, _, _ => none
  | fuel + 1, st, world, cwd, path_to_sync, remote_prefix, local_relative_to,
      force, name, sub, ts =>
    match pyRelativeTo path_to_sync local_relative_to with
    | .error e => some (.error e, st, [])
    | .ok relative_path =>
      match getAt world (splitPath (resolve cwd path_to_sync)) with
      | some (.file content) =>
        let remote := pyPathJoin remote_prefix relative_path
        some (.ok, st.put remote content, [.put remote content])
      | none => some (.error (.fileNotFound path_to_sync), st, [])
      | some (.dir cs) =>
        let all_dirs := (cs.filter (fun c => c.2.isDir)).map (fun c => c.1)
        match syncFold sched uploadFuel fuel st world cwd path_to_sync
            remote_prefix local_relative_to force name sub ts all_dirs with
        | none => none
        | some (.ok, st', tr') =>
          match syncLevel st' cs path_to_sync relative_path remote_prefix
              force name sub ts uploadFuel sched with
          | (out, st2, tr2) => some (out, st2, tr' ++ tr2)
        | some r => some r
  termination_by fuel _ _ _ _ _ _ _ _ _ _ => (fuel, 0)

/-- The `for _dir in all_dirs: sync(...)` depth-first recursion (lines
180–188): each subdirectory's whole sync runs before this level's own
work; the first exception (or a hung subtree) aborts the rest. -/
def syncFold (sched : Nat → Nat → Dec) (uploadFuel : Nat) :
    Nat → RemoteState → FSTree → String → String → String → Option String →
    Bool → String → String → String → List String →
    Option (Outcome × RemoteState × List Ev)
  | _, st, _, _, _, _, _, _, _, _, _, [] => some (.ok, st, [])
  | fuel, st, world, cwd, path_to_sync, remote_prefix, local_relative_to,
      force, name, sub, ts, d :: rest =>
    match sync sched uploadFuel fuel st world cwd (pyPathJoin path_to_sync d)
        remote_prefix local_relative_to force name sub ts with
    | none => none
    | some (.ok, st', tr') =>
      match syncFold sched uploadFuel fuel st' world cwd path_to_sync
          remote_prefix local_relative_to force name sub ts rest with
      | none => none
      | some (out, st2, tr2) => some (out, st2, tr' ++ tr2)
    | some r => some r
  termination_by fuel _ _ _ _ _ _ _ _ _ _ l => (fuel, l.length + 1)

end

/-!
## Listing-order independence (claim C10)

`Reorder t tR` says the two trees are the same directory contents
presented by the filesystem in (possibly) different enumeration orders:
at every node the children are a permutation, matched up name-for-name
with recursively reordered subtrees. `NodupNames` is the filesystem
well-formedness fact that sibling names are distinct.
-/

mutual

/-- Two trees describe the same on-disk contents, up to the order in which
the filesystem enumerates children (at every depth). -/
inductive Reorder : FSTree → FSTree → Prop where
  | file (c : String) : Reorder (.file c) (.file c)
  | dir {cs mid csR : List (String × FSTree)} (hp : cs.Perm mid)
      (hf : ReorderChildren mid csR) : Reorder (.dir cs) (.dir csR)

/-- Pointwise matching of child lists: same names in the same positions,
subtrees reordered. -/
inductive ReorderChildren : List (String × FSTree) → List (String × FSTree) → Prop where
  | nil : ReorderChildren [] []
  | cons {n : String} {t tR : FSTree} {cs csR : List (String × FSTree)}
      (h : Reorder t tR) (hs : ReorderChildren cs csR) :
      ReorderChildren ((n, t) :: cs) ((n, tR) :: csR)

end

/-- Sibling names are distinct at every depth (true of any real directory
tree, where a name appears at most once per directory). -/
inductive NodupNames : FSTree → Prop where
  | file (c : String) : NodupNames (.file c)
  | dir {cs : List (String × FSTree)} (hn : (cs.map Prod.fst).Nodup)
      (hc : ∀ p ∈ cs, NodupNames p.2) : NodupNames (.dir cs)

instance : IsTotal (String × FSTree) nameLE := ⟨fun a b => le_total a.1 b.1⟩

instance : IsTrans (String × FSTree) nameLE := ⟨fun _ _ _ hab hbc => le_trans hab hbc⟩

/-- Strict name order on child pairs. -/
def nameLT (a b : String × FSTree) : Prop := a.1 < b.1

instance : IsAntisymm (String × FSTree) nameLT :=
  ⟨fun _ _ hab hba => absurd hba (lt_asymm hab)⟩

theorem perm_sortChildren (l : List (String × FSTree)) : (sortChildren l).Perm l :=
  List.perm_insertionSort _ _

theorem sorted_sortChildren (l : List (String × FSTree)) :
    List.Sorted nameLE (sortChildren l) :=
  List.sorted_insertionSort _ _

theorem pairwise_lt_of_sorted_nodup {l : List (String × FSTree)}
    (hs : List.Sorted nameLE l) (hn : (l.map Prod.fst).Nodup) :
    List.Pairwise nameLT l := by
  have hne : List.Pairwise (fun a b : String × FSTree => a.1 ≠ b.1) l :=
    (List.pairwise_map).mp hn
  exact (hs.and hne).imp (fun h => lt_of_le_of_ne h.1 h.2)

/-- With distinct names, sorting forgets the incoming order entirely: any
two permuted listings sort to the same child sequence. -/
theorem sortChildren_eq_of_perm {l₁ l₂ : List (String × FSTree)}
    (hp : l₁.Perm l₂) (hn : (l₁.map Prod.fst).Nodup) :
    sortChildren l₁ = sortChildren l₂ := by
  have h1 : (sortChildren l₁).Perm (sortChildren l₂) :=
    (perm_sortChildren l₁).trans (hp.trans (perm_sortChildren l₂).symm)
  have hn₁ : ((sortChildren l₁).map Prod.fst).Nodup :=
    (((perm_sortChildren l₁).map Prod.fst).nodup_iff).mpr hn
  have hn₂ : ((sortChildren l₂).map Prod.fst).Nodup :=
    (((perm_sortChildren l₂).map Prod.fst).nodup_iff).mpr
      (((hp.map Prod.fst).nodup_iff).mp hn)
  exact List.eq_of_perm_of_sorted h1
    (pairwise_lt_of_sorted_nodup (sorted_sortChildren l₁) hn₁)
    (pairwise_lt_of_sorted_nodup (sorted_sortChildren l₂) hn₂)

theorem ReorderChildren.names_eq {l lR : List (String × FSTree)}
    (h : ReorderChildren l lR) : l.map Prod.fst = lR.map Prod.fst := by
  induction l generalizing lR with
  | nil => cases h; rfl
  | cons hd tl ih => cases h with
    | cons hr hs => simp [ih hs]

theorem ReorderChildren.orderedInsert {l lR : List (String × FSTree)}
    (h : ReorderChildren l lR) {n : String} {t tR : FSTree} (ht : Reorder t tR) :
    ReorderChildren (l.orderedInsert nameLE (n, t)) (lR.orderedInsert nameLE (n, tR)) := by
  induction l generalizing lR with
  | nil => cases h; exact .cons ht .nil
  | cons hd tl ih =>
    obtain ⟨m, u⟩ := hd
    cases h with
    | cons hr hs =>
      rename_i uR csR
      simp only [List.orderedInsert]
      by_cases hle : nameLE (n, t) (m, u)
      · have hle' : nameLE (n, tR) (m, uR) := hle
        rw [if_pos hle, if_pos hle']
        exact .cons ht (.cons hr hs)
      · have hle' : ¬ nameLE (n, tR) (m, uR) := hle
        rw [if_neg hle, if_neg hle']
        exact .cons hr (ih hs)

/-- Sorting compares names only, and matched children carry equal names,
so sorting preserves the pointwise matching. -/
theorem ReorderChildren.sortChildren {l lR : List (String × FSTree)}
    (h : ReorderChildren l lR) :
    ReorderChildren (sortChildren l) (sortChildren lR) := by
  induction l generalizing lR with
  | nil => cases h; exact .nil
  | cons hd tl ih =>
    cases h with
    | cons hr hs =>
      simpa only [sortChildren, List.insertionSort] using
        (ih hs).orderedInsert hr

theorem sizeOf_snd_lt_of_mem {x : String × FSTree} {cs : List (String × FSTree)}
    (h : x ∈ cs) : sizeOf x.2 < sizeOf cs := by
  induction cs with
  | nil => cases h
  | cons hd tl ih =>
    rcases List.mem_cons.mp h with rfl | h
    · cases x with | mk a b => simp; omega
    · have := ih h; simp; omega

theorem Reorder.isDir_eq {t tR : FSTree} (h : Reorder t tR) : t.isDir = tR.isDir := by
  cases h <;> rfl

/-- The manifest loop yields equal text (or the identical error) on
pointwise-matched, name-identical child sequences. -/
theorem hashChildren_congr (m : String → String) (f : Option (String → Bool)) :
    ∀ {l lR : List (String × FSTree)}, ReorderChildren l lR →
      (∀ x ∈ l, ∀ tR p, Reorder x.2 tR → hash_fn m f p x.2 = hash_fn m f p tR) →
      ∀ p, hashChildren m f p l = hashChildren m f p lR := by
  intro l
  induction l with
  | nil => intro lR h _ p; cases h; rfl
  | cons hd tl ih =>
    intro lR h hih p
    obtain ⟨nm, t⟩ := hd
    cases h with
    | cons hr hs =>
      rename_i tR csR
      have hihtl : ∀ x ∈ tl, ∀ tR p, Reorder x.2 tR → hash_fn m f p x.2 = hash_fn m f p tR :=
        fun x hx => hih x (List.mem_cons_of_mem _ hx)
      have hhead : ∀ p, hash_fn m f p t = hash_fn m f p tR :=
        fun p => hih (nm, t) (List.mem_cons_self _ _) tR p hr
      rw [hashChildren.eq_def, hashChildren.eq_def]
      simp only
      rw [hhead, hr.isDir_eq, ih hs hihtl p]

theorem hash_fn_reorder_aux (m : String → String) (f : Option (String → Bool)) :
    ∀ (n : Nat) (t tR : FSTree), sizeOf t ≤ n → Reorder t tR → NodupNames t →
      ∀ p, hash_fn m f p t = hash_fn m f p tR := by
  intro n
  induction n with
  | zero =>
    intro t tR hsz _ _ _
    exact absurd hsz (by cases t <;> simp)
  | succ n ih =>
    intro t tR hsz hr hwf p
    cases hr with
    | file c => rfl
    | dir hp hf =>
      rename_i cs mid csR
      cases hwf with
      | dir hn hc =>
        rw [hash_fn.eq_def, hash_fn.eq_def]
        simp only
        have hsort : sortChildren cs = sortChildren mid :=
          sortChildren_eq_of_perm hp hn
        have hf' : ReorderChildren (sortChildren mid) (sortChildren csR) :=
          hf.sortChildren
        rw [hsort]
        refine hashChildren_congr m f hf' ?_ p
        intro x hx tR' p' hrx
        have hxmid : x ∈ mid := (perm_sortChildren mid).mem_iff.mp hx
        have hxcs : x ∈ cs := hp.mem_iff.mpr hxmid
        have hszx : sizeOf x.2 ≤ n := by
          have h1 := sizeOf_snd_lt_of_mem hxcs
          have h2 : sizeOf (FSTree.dir cs) ≤ n + 1 := hsz
          simp at h2
          omega
        exact ih x.2 tR' hszx hrx (hc x hxcs) p'

/-- `hash_fn` is a function of directory *contents*: any two enumeration
orders of a well-formed tree hash to the same result. -/
theorem hash_fn_reorder (m : String → String) (f : Option (String → Bool))
    {t tR : FSTree} (hr : Reorder t tR) (hwf : NodupNames t) (p : String) :
    hash_fn m f p t = hash_fn m f p tR :=
  hash_fn_reorder_aux m f (sizeOf t) t tR le_rfl hr hwf p

/-!
## Fixtures, stand-ins and witness data
-/

/-- Digest stand-in used by concrete witnesses; every theorem that
involves hashing is stated for an arbitrary digest function. -/
def md5Stub (s : String) : String := "md5:" ++ s

/-- A scheduler under which every submitted upload completes successfully
in its round. -/
def schedAllSuccess : Nat → Nat → Dec := fun _ _ => .success

/-- A scheduler under which every submitted upload fails in its round. -/
def schedAllFail : Nat → Nat → Dec := fun _ _ => .failure

/-- `root/sub` of the spec's concrete fixture: `b.txt` holding `"world"`. -/
def fixtureSub : FSTree := .dir [("b.txt", .file "world")]

/-- The spec's concrete fixture `root/`: `a.txt` holding `"hello"` and the
subdirectory `sub/`. -/
def fixtureRoot : FSTree := .dir [("a.txt", .file "hello"), ("sub", fixtureSub)]

/-- C7 exhibit directory: a data file and the reserved manifest file. -/
def dirC7 : FSTree := .dir [("a.txt", .file "data-a"), ("md5.hash", .file "oldhash")]

/-- C9 exhibit directory: a data file and a timestamped manifest backup. -/
def dirC9 : FSTree := .dir [("a.txt", .file "xx"), ("md5.hash.bk.1700000000", .file "oldmanifest")]

/-- The C8 world: the working directory `/w` contains the target tree
`root/` with data file `a.txt` and subdirectory `sub/`. -/
def worldC8 : FSTree :=
  .dir [("w", .dir [("root", .dir [("a.txt", .file "x"), ("sub", .dir [("b.txt", .file "y")])])])]

/-- A second C8 world: the working directory *is* the target tree, which
nests two directory levels. -/
def worldC8b : FSTree :=
  .dir [("w", .dir [("root", .dir [("sub", .dir [("deeper", .dir [("c.txt", .file "z")])])])])]

/-- Remote state for the skip-on-match witness: matching manifest and,
for C3's counterexample, an existing lock. -/
def stMatchW : RemoteState := ⟨[("pre/root/md5.hash", "H"), ("pre/root/.lock", "LOCKED")]⟩

/-- Local children for the witnesses: a data file plus a local manifest
whose content matches the remote one. -/
def kidsW : List (String × FSTree) := [("a.txt", .file "hello"), ("md5.hash", .file "H")]

/-- Remote state with a mismatching manifest and an existing lock. -/
def stLockW : RemoteState := ⟨[("pre/root/md5.hash", "OLD"), ("pre/root/.lock", "LOCKED")]⟩

/-- The tasks of the successful attempts, in completion order. -/
def successTasks (att : List (SyncTask × Bool)) : List SyncTask :=
  (att.filter (fun a => a.2)).map (fun a => a.1)

/-- The upload task used in the C5 witness. -/
def tW : SyncTask := ⟨"root/a.txt", "pre/root/a.txt", "hello"⟩

/-- Remote state for the C4 witness: only a prior op log exists. -/
def stC4W : RemoteState := ⟨[("d/sync.log", "old")]⟩

/-- A C4 witness body that raises after one failed upload attempt and one
log message — exercising the exception exit path. -/
def bodyC4W : RemoteState → BodyResult :=
  fun s => (.error (.typeError "boom"), s, [Ev.putFail "q/x"], ["retry x"])

/-- The accumulated log the C4 witness expects written back. -/
def fullC4W : String :=
  log_msg_tmpl "N" "S" "T" "end sync" ++ "\n" ++
    List.foldl (fun acc mg => log_msg_tmpl "N" "S" "T" mg ++ "\n" ++ acc)
      (log_msg_tmpl "N" "S" "T" "start sync" ++ "\n" ++
        (((stC4W.put (pyPathJoin "d" ".lock") (log_msg_tmpl "N" "S" "T" "lock")).get
            (pyPathJoin "d" LOG_FILE)).getD ""))
      ["retry x"]

/-- One listing order of the witness directory. -/
def tOrd1 : FSTree := .dir [("b.txt", .file "2"), ("a.txt", .file "1")]

/-- The other listing order of the same directory contents. -/
def tOrd2 : FSTree := .dir [("a.txt", .file "1"), ("b.txt", .file "2")]

/-!
## Helper lemmas for the upload retry engine
-/

theorem roundStep_conservation : ∀ l att next, roundStep l = (att, next) →
    (l.map Prod.fst).Perm (successTasks att ++ next)
    ∧ (∀ t, (t, false) ∈ att → t ∈ next) := by
  intro l
  induction l with
  | nil => intro att next h; cases h; exact ⟨by simp [successTasks], by simp⟩
  | cons hd tl ih =>
    intro att next h
    obtain ⟨t, d⟩ := hd
    rcases hrs : roundStep tl with ⟨att', next'⟩
    obtain ⟨hperm, hmem⟩ := ih att' next' hrs
    rw [roundStep, hrs] at h
    cases d with
    | success =>
      cases h
      constructor
      · simpa [successTasks] using hperm.cons t
      · intro u hu
        rcases List.mem_cons.mp hu with he | hu'
        · cases he
        · exact hmem u hu'
    | failure =>
      cases h
      constructor
      · refine (hperm.cons t).trans ?_
        simpa [successTasks] using (List.perm_middle).symm
      · intro u hu
        rcases List.mem_cons.mp hu with he | hu'
        · cases he; exact List.mem_cons_self _ _
        · exact List.mem_cons_of_mem _ (hmem u hu')
    | pending =>
      cases h
      constructor
      · exact (hperm.cons t).trans (List.perm_middle).symm
      · intro u hu
        exact List.mem_cons_of_mem _ (hmem u hu)

theorem zipDecs_map_fst (sched : Nat → Nat → Dec) (round : Nat) (ts : List SyncTask) :
    (zipDecs sched round ts).map Prod.fst = ts := by
  simp only [zipDecs, List.map_map]
  have hcomp : (Prod.fst ∘ fun p : Nat × SyncTask => (p.2, sched round p.1)) = Prod.snd := rfl
  rw [hcomp, List.enum_map_snd]

theorem successTasks_append (a b : List (SyncTask × Bool)) :
    successTasks (a ++ b) = successTasks a ++ successTasks b := by
  simp [successTasks]

theorem uploadLoop_complete_all_succeed (sched : Nat → Nat → Dec) :
    ∀ (fuel round : Nat) (tasks : List SyncTask) (att : List (SyncTask × Bool)),
      uploadLoop sched fuel round tasks = (att, true) →
      (successTasks att).Perm tasks := by
  intro fuel
  induction fuel with
  | zero =>
    intro round tasks att h
    cases tasks with
    | nil => cases h; simp [successTasks]
    | cons t ts => cases h
  | succ n ih =>
    intro round tasks att h
    cases tasks with
    | nil => cases h; simp [successTasks]
    | cons t ts =>
      rw [uploadLoop] at h
      rcases hrs : roundStep (zipDecs sched round (t :: ts)) with ⟨att₀, next⟩
      simp only [hrs] at h
      rcases hul : uploadLoop sched n (round + 1) next with ⟨tr, done⟩
      simp only [hul] at h
      obtain ⟨rfl, hdone⟩ : att₀ ++ tr = att ∧ done = true := by
        cases h; exact ⟨rfl, rfl⟩
      subst hdone
      have h1 := (roundStep_conservation _ _ _ hrs).1
      rw [zipDecs_map_fst] at h1
      have h2 := ih (round + 1) next tr hul
      rw [successTasks_append]
      exact (h2.append_left (successTasks att₀)).trans h1.symm

theorem roundStep_all_fail : ∀ l : List (SyncTask × Dec),
    (∀ x ∈ l, x.2 = Dec.failure) →
    roundStep l = (l.map (fun x => (x.1, false)), l.map Prod.fst) := by
  intro l
  induction l with
  | nil => intro _; rfl
  | cons hd tl ih =>
    intro hall
    obtain ⟨t, d⟩ := hd
    have hd2 : d = Dec.failure := hall (t, d) (List.mem_cons_self _ _)
    subst hd2
    rw [roundStep, ih (fun x hx => hall x (List.mem_cons_of_mem _ hx))]
    rfl

theorem uploadLoop_all_fail_never_exits (sched : Nat → Nat → Dec)
    (hsched : ∀ i j, sched i j = Dec.failure) :
    ∀ (fuel round : Nat) (tasks : List SyncTask), tasks ≠ [] →
      (uploadLoop sched fuel round tasks).2 = false := by
  intro fuel
  induction fuel with
  | zero =>
    intro round tasks hne
    cases tasks with
    | nil => exact absurd rfl hne
    | cons t ts => rfl
  | succ n ih =>
    intro round tasks hne
    cases tasks with
    | nil => exact absurd rfl hne
    | cons t ts =>
      rw [uploadLoop]
      have hall : ∀ x ∈ zipDecs sched round (t :: ts), x.2 = Dec.failure := by
        intro x hx
        simp [zipDecs] at hx
        obtain ⟨i, u, _, hxe⟩ := hx
        rw [← hxe]
        exact hsched round i
      rw [roundStep_all_fail _ hall]
      have hne' : (zipDecs sched round (t :: ts)).map Prod.fst ≠ [] := by
        rw [zipDecs_map_fst]; simp
      have := ih (round + 1) ((zipDecs sched round (t :: ts)).map Prod.fst) hne'
      rcases hul : uploadLoop sched n (round + 1) ((zipDecs sched round (t :: ts)).map Prod.fst) with ⟨tr, done⟩
      rw [hul] at this
      simp [hul, this]

theorem syncLevel_no_release_when_incomplete (st : RemoteState)
    (children : List (String × FSTree)) (path_to_sync relative_path remote_prefix : String)
    (force : Bool) (name sub ts : String) (fuel : Nat) (sched : Nat → Nat → Dec)
    (hincomplete : (uploadLoop sched fuel 0
        (levelUploads children path_to_sync relative_path remote_prefix)).2 = false) :
    (syncLevel st children path_to_sync relative_path remote_prefix force name sub ts
        fuel sched).2.2.all (fun e => !e.isDelete) = true := by
  rcases hul : uploadLoop sched fuel 0
      (levelUploads children path_to_sync relative_path remote_prefix) with ⟨att, done⟩
  rw [hul] at hincomplete
  simp only at hincomplete
  subst hincomplete
  unfold syncLevel run_sync_context
  simp only [hul]
  repeat' split
  all_goals simp_all [List.all_append, Ev.isDelete]
  all_goals intro x t h
  all_goals rcases h with ⟨_, hx⟩ | ⟨_, hx⟩ <;> (cases hx; rfl)

/-!
## The claims
-/

/-- C1: the spec claims `digest(d)` of a directory renders one
`path\tdigest` record per sorted child, a subdirectory contributing the
digest of its own manifest text. On the fixture, the sub-level manifest is
produced as claimed, but at `root` the code passes the subdirectory's
manifest *str* to `hashlib.md5`, which Python 3 rejects: instead of the
claimed two-record manifest, `hash_fn` raises
`TypeError: Strings must be encoded before hashing` — for every digest
function. -/
theorem hash_fn_dir_record_typeError :
    ∀ md5hex : String → String,
      hash_fn md5hex none "root/sub" fixtureSub
          = .ok ("root/sub/b.txt" ++ "\t" ++ md5hex "world" ++ "\n")
      ∧ hash_fn md5hex none "root" fixtureRoot
          = .error (.typeError "Strings must be encoded before hashing") := by
  intro m
  constructor
  · simp +decide [hash_fn, hashChildren, fixtureSub, sortChildren, md5_hexdigest,
      pyPathJoin, nameLE, FSTree.isDir, isAbsPath]
    rfl
  · simp +decide [hash_fn, hashChildren, fixtureRoot, fixtureSub, sortChildren,
      md5_hexdigest, pyPathJoin, nameLE, FSTree.isDir, isAbsPath]
    rfl

/-- C7: the claim says children for which the injected exclusion
predicate returns true are skipped and the reserved manifest file is
excluded from its own directory's hash input. The code does the exact
opposite: `hash_fn` skips children for which `filter_fn` returns *false*,
and `hash_dir` passes `ignore_hash` (true exactly on reserved-manifest
paths) as that filter — so the manifest text contains *only* the reserved
manifest file and omits every ordinary child. -/
theorem hash_fn_ignore_hash_inverted :
    ∀ md5hex : String → String,
      hash_fn md5hex (some ignore_hash) "root" dirC7
        = .ok ("root/md5.hash" ++ "\t" ++ md5hex "oldhash" ++ "\n") := by
  intro m
  simp +decide [hash_fn, hashChildren, dirC7, sortChildren, md5_hexdigest,
    pyPathJoin, nameLE, FSTree.isDir, isAbsPath, ignore_hash, MD5_HASH_FILE]
  rfl

/-- C9: the claim says `<reservedManifestName>.bk.<ts>` backups are
never hashed and never uploaded. In the code they are both: `ignore_hash`
is true on backup paths (substring test), and with the inverted filter of
C7 that *includes* them in the hash input; and `sync`'s per-directory
batch enumerates every regular file with no exclusion, so the backup is
uploaded as data (the `Ev.put` of the backup appears in the trace). -/
theorem backup_files_hashed_and_uploaded :
    (∀ md5hex : String → String,
      hash_fn md5hex (some ignore_hash) "root" dirC9
        = .ok ("root/md5.hash.bk.1700000000" ++ "\t" ++ md5hex "oldmanifest" ++ "\n"))
    ∧ Ev.put "pre/root/md5.hash.bk.1700000000" "oldmanifest"
        ∈ (syncLevel ⟨[]⟩ [("a.txt", .file "xx"), ("md5.hash.bk.1700000000", .file "oldmanifest")]
            "root" "root" "pre" true "N" "S" "T" 2 schedAllSuccess).2.2 := by
  constructor
  · intro m
    simp +decide [hash_fn, hashChildren, dirC9, sortChildren, md5_hexdigest,
      pyPathJoin, nameLE, FSTree.isDir, isAbsPath, ignore_hash, MD5_HASH_FILE]
    rfl
  · decide

/-- C8: the claim says `persistManifests` succeeds on any well-formed
tree regardless of the working directory. The code calls `hash_dir(sub_dir)`
with the bare child name, which the OS resolves against the *working
directory*: with cwd `/w` and target `root`, the recursion lists `/w/sub`,
which does not exist, and raises `FileNotFoundError` — and even with cwd
equal to the target itself the same slip fires one level deeper. Also note
the walk loop never writes a manifest for the root directory itself. -/
theorem hash_dir_bare_name_recursion_crashes :
    ∀ md5hex : String → String,
      hash_dir md5hex 10 worldC8 "/w" 0 "root" = some (.error (.fileNotFound "sub"))
      ∧ hash_dir md5hex 10 worldC8b "/w/root" 0 "/w/root"
          = some (.error (.fileNotFound "deeper")) := by
  intro m
  constructor
  · simp +decide [hash_dir, hashDirFold, worldC8, resolve, splitPath, splitAux,
      pyPathJoin, isAbsPath, getAt, FSTree.isDir, List.lookup]
  · simp +decide [hash_dir, hashDirFold, worldC8b, resolve, splitPath, splitAux,
      pyPathJoin, isAbsPath, getAt, FSTree.isDir, List.lookup]

/-- C6: the claim says the lock marker is created at
`remotePrefix / relative(localPath, relativeBase) / .lock` — the directory
being uploaded into — for all values of `local_relative_to`. The code
passes `Path(remote_prefix, path_to_sync)` (the *untrimmed* local path) to
`sync_context`: with `path_to_sync = "/data/root"`, `relative_path =
"root"`, `remote_prefix = "pre"`, uploads go to `pre/root/a.txt` while the
lock is created and deleted at `/data/root/.lock`, not `pre/root/.lock`. -/
theorem lock_not_in_upload_directory :
    syncLevel ⟨[]⟩ [("a.txt", .file "hello")] "/data/root" "root" "pre" true
        "N" "S" "T" 2 schedAllSuccess
      = (.ok,
         ⟨[("/data/root/sync.log", "N/S: T: end sync\nN/S: T: start sync\n"),
           ("pre/root/a.txt", "hello")]⟩,
         [.get "/data/root/.lock",
          .put "/data/root/.lock" "N/S: T: lock",
          .get "/data/root/sync.log",
          .put "pre/root/a.txt" "hello",
          .get "/data/root/.lock",
          .delete "/data/root/.lock",
          .put "/data/root/sync.log" "N/S: T: end sync\nN/S: T: start sync\n"])
    ∧ "/data/root/.lock" ≠ "pre/root/.lock" := by
  constructor
  · decide
  · decide

/-- C2: at a directory level with `force=false`, if the local reserved
manifest exists and its content equals the remote manifest at
`remote_prefix / relative_path / MD5_HASH_FILE`, then `sync` returns
immediately: its whole remote interaction at that level is the single
manifest `get` — no upload, no lock acquisition, no remote write, and the
remote state is untouched. -/
theorem sync_skip_on_manifest_match (st : RemoteState)
    (children : List (String × FSTree)) (path_to_sync relative_path remote_prefix : String)
    (name sub ts : String) (fuel : Nat) (sched : Nat → Nat → Dec) (h : String)
    (hloc : children.lookup MD5_HASH_FILE = some (FSTree.file h))
    (hrem : st.get (pyPathJoin (pyPathJoin remote_prefix relative_path) MD5_HASH_FILE) = some h) :
    syncLevel st children path_to_sync relative_path remote_prefix false name sub ts fuel sched
      = (.ok, st, [.get (pyPathJoin (pyPathJoin remote_prefix relative_path) MD5_HASH_FILE)]) := by
  simp [syncLevel, hloc, hrem]

/-- C2 witness: concrete matching manifest state. -/
theorem sync_skip_on_manifest_match_witness :
    kidsW.lookup MD5_HASH_FILE = some (FSTree.file "H")
    ∧ stMatchW.get (pyPathJoin (pyPathJoin "pre" "root") MD5_HASH_FILE) = some "H"
    ∧ syncLevel stMatchW kidsW "root" "root" "pre" false "N" "S" "T" 2 schedAllSuccess
        = (.ok, stMatchW, [.get (pyPathJoin (pyPathJoin "pre" "root") MD5_HASH_FILE)]) :=
  ⟨by rfl, by decide,
    sync_skip_on_manifest_match stMatchW kidsW "root" "root" "pre" "N" "S" "T" 2
      schedAllSuccess "H" (by rfl) (by decide)⟩

/-- C3 counterexample: the claim as stated quantifies over *every*
sync invocation where `.lock` exists and `force=false`. But when the
manifests also match, the skip-on-match return fires before the lock is
ever consulted: here the lock exists at `pre/root/.lock`, yet the
directory-level sync completes with outcome `ok` and raises nothing. -/
theorem sync_locked_skip_counterexample :
    stMatchW.get "pre/root/.lock" = some "LOCKED"
    ∧ (syncLevel stMatchW kidsW "root" "root" "pre" false "N" "S" "T" 2 schedAllSuccess).1
        = Outcome.ok := by
  constructor
  · decide
  · decide

/-- C3 as amended: for every directory-level sync with `force=false`
that *proceeds past the manifest comparison* (no local manifest, or local
and remote manifests differ), if the lock marker exists at the checked
lock path then the operation fails with `SyncLocked` carrying the lock
content, the remote state is unchanged, and the trace contains no put and
no delete — only reads. -/
theorem sync_locked_when_proceeding (st : RemoteState)
    (children : List (String × FSTree)) (path_to_sync relative_path remote_prefix : String)
    (name sub ts : String) (fuel : Nat) (sched : Nat → Nat → Dec) (lockContent : String)
    (hproceed : children.lookup MD5_HASH_FILE = none ∨
      ∃ h, children.lookup MD5_HASH_FILE = some (FSTree.file h) ∧
        st.get (pyPathJoin (pyPathJoin remote_prefix relative_path) MD5_HASH_FILE) ≠ some h)
    (hlock : st.get (pyPathJoin (pyPathJoin remote_prefix path_to_sync) ".lock") = some lockContent) :
    (syncLevel st children path_to_sync relative_path remote_prefix false name sub ts fuel sched).1
        = .error (.syncLocked (pyPathJoin remote_prefix path_to_sync ++ " is locked. '"
            ++ lockContent ++ "' Set force=True to force write."))
    ∧ (syncLevel st children path_to_sync relative_path remote_prefix false name sub ts fuel sched).2.1 = st
    ∧ (syncLevel st children path_to_sync relative_path remote_prefix false name sub ts fuel sched).2.2.all
        (fun e => !e.isWrite) = true := by
  rcases hproceed with hnone | ⟨h, hsome, hne⟩
  · simp [syncLevel, hnone, run_sync_context, hlock, Ev.isWrite]
  · rcases hr : st.get (pyPathJoin (pyPathJoin remote_prefix relative_path) MD5_HASH_FILE) with _ | h'
    · simp [syncLevel, hsome, hr, run_sync_context, hlock, Ev.isWrite]
    · have hneq : h ≠ h' := fun he => hne (he ▸ hr)
      simp [syncLevel, hsome, hr, hneq, run_sync_context, hlock, Ev.isWrite]

/-- C3 witness (for the amended claim): mismatching manifests and an
existing lock. -/
theorem sync_locked_when_proceeding_witness :
    (syncLevel stLockW kidsW "root" "root" "pre" false "N" "S" "T" 2 schedAllSuccess).1
        = .error (.syncLocked (pyPathJoin "pre" "root" ++ " is locked. '"
            ++ "LOCKED" ++ "' Set force=True to force write."))
    ∧ (syncLevel stLockW kidsW "root" "root" "pre" false "N" "S" "T" 2 schedAllSuccess).2.1 = stLockW
    ∧ (syncLevel stLockW kidsW "root" "root" "pre" false "N" "S" "T" 2 schedAllSuccess).2.2.all
        (fun e => !e.isWrite) = true :=
  sync_locked_when_proceeding stLockW kidsW "root" "root" "pre" "N" "S" "T" 2 schedAllSuccess
    "LOCKED" (Or.inr ⟨"H", rfl, by decide⟩) (by decide)

/-- C4: whenever the protected body of `sync_context` returns — whether
with `ok` or with a raised exception — and the lock marker is still in
place, scope exit deletes the lock marker, prepends an `"end sync"` record
to the accumulated in-memory log (newest first: end-sync, then the body's
messages, then start-sync, then the previous remote log), and writes that
full log back to `<remoteDir>/sync.log`, replacing its prior content; the
body's outcome is propagated unchanged. -/
theorem sync_context_release_on_all_exits (st : RemoteState) (remote_dir_dst : String)
    (force : Bool) (name sub ts : String) (body : RemoteState → BodyResult)
    (bout : Outcome) (st2 : RemoteState) (bev : List Ev) (bmsgs : List String)
    (full : String)
    (henter : st.get (pyPathJoin remote_dir_dst ".lock") = none ∨ force = true)
    (hbody : body (st.put (pyPathJoin remote_dir_dst ".lock") (log_msg_tmpl name sub ts "lock"))
        = (bout, st2, bev, bmsgs))
    (hnothung : bout ≠ .hung)
    (hlockstill : (st2.get (pyPathJoin remote_dir_dst ".lock")).isSome)
    (hfull : full = log_msg_tmpl name sub ts "end sync" ++ "\n" ++
        bmsgs.foldl (fun acc mg => log_msg_tmpl name sub ts mg ++ "\n" ++ acc)
          (log_msg_tmpl name sub ts "start sync" ++ "\n" ++
            (((st.put (pyPathJoin remote_dir_dst ".lock") (log_msg_tmpl name sub ts "lock")).get
                (pyPathJoin remote_dir_dst LOG_FILE)).getD ""))) :
    run_sync_context st remote_dir_dst force name sub ts body
      = (bout,
         (st2.del (pyPathJoin remote_dir_dst ".lock")).put (pyPathJoin remote_dir_dst LOG_FILE) full,
         [Ev.get (pyPathJoin remote_dir_dst ".lock"),
          Ev.put (pyPathJoin remote_dir_dst ".lock") (log_msg_tmpl name sub ts "lock"),
          Ev.get (pyPathJoin remote_dir_dst LOG_FILE)]
           ++ bev
           ++ [Ev.get (pyPathJoin remote_dir_dst ".lock"),
               Ev.delete (pyPathJoin remote_dir_dst ".lock"),
               Ev.put (pyPathJoin remote_dir_dst LOG_FILE) full]) := by
  obtain ⟨c, hc⟩ := Option.isSome_iff_exists.mp hlockstill
  rcases henter with hnone | hforce
  · rw [run_sync_context]
    simp only [hnone, hbody]
    cases bout with
    | hung => exact absurd rfl hnothung
    | ok => simp [hc, hfull]
    | error e => simp [hc, hfull]
  · subst hforce
    rw [run_sync_context]
    rcases hg : st.get (pyPathJoin remote_dir_dst ".lock") with _ | c0
    all_goals simp only [hg, hbody, if_true]
    all_goals cases bout with
    | hung => exact absurd rfl hnothung
    | ok => simp [hc, hfull]
    | error e => simp [hc, hfull]

/-- C4 witness: a body that raises, exercising the exception exit
path. -/
theorem sync_context_release_on_all_exits_witness :
    run_sync_context stC4W "d" false "N" "S" "T" bodyC4W
      = (.error (.typeError "boom"),
         ((stC4W.put (pyPathJoin "d" ".lock") (log_msg_tmpl "N" "S" "T" "lock")).del
            (pyPathJoin "d" ".lock")).put (pyPathJoin "d" LOG_FILE) fullC4W,
         [Ev.get (pyPathJoin "d" ".lock"),
          Ev.put (pyPathJoin "d" ".lock") (log_msg_tmpl "N" "S" "T" "lock"),
          Ev.get (pyPathJoin "d" LOG_FILE)]
           ++ [Ev.putFail "q/x"]
           ++ [Ev.get (pyPathJoin "d" ".lock"),
               Ev.delete (pyPathJoin "d" ".lock"),
               Ev.put (pyPathJoin "d" LOG_FILE) fullC4W]) :=
  sync_context_release_on_all_exits stC4W "d" false "N" "S" "T" bodyC4W
    (.error (.typeError "boom"))
    (stC4W.put (pyPathJoin "d" ".lock") (log_msg_tmpl "N" "S" "T" "lock"))
    [Ev.putFail "q/x"] ["retry x"] fullC4W
    (Or.inl (by decide)) rfl (by decide) (by decide) rfl

/-- C5: the retry engine contract. (1) In every `wait` round, exactly
the successfully completed tasks leave the pool and every failed task is
resubmitted as the identical task (same local path, remote path and
content). (2) If the loop exits, the multiset of successfully uploaded
tasks is exactly the submitted batch. (3) Under permanent failure the
loop never exits, for any fuel — there is no retry limit. (4) If the loop
has not completed, the directory-level sync has performed no `delete` at
all — in particular the lock marker is never released before every upload
in the batch has succeeded. -/
theorem upload_retry_until_all_succeed :
    (∀ (l : List (SyncTask × Dec)) (att : List (SyncTask × Bool)) (next : List SyncTask),
      roundStep l = (att, next) →
        ((l.map Prod.fst).Perm (successTasks att ++ next)
          ∧ ∀ t, (t, false) ∈ att → t ∈ next))
    ∧ (∀ (sched : Nat → Nat → Dec) (fuel round : Nat) (tasks : List SyncTask)
          (att : List (SyncTask × Bool)),
        uploadLoop sched fuel round tasks = (att, true) → (successTasks att).Perm tasks)
    ∧ (∀ sched : Nat → Nat → Dec, (∀ i j, sched i j = Dec.failure) →
        ∀ (fuel round : Nat) (tasks : List SyncTask), tasks ≠ [] →
          (uploadLoop sched fuel round tasks).2 = false)
    ∧ (∀ (st : RemoteState) (children : List (String × FSTree))
          (path_to_sync relative_path remote_prefix : String) (force : Bool)
          (name sub ts : String) (fuel : Nat) (sched : Nat → Nat → Dec),
        (uploadLoop sched fuel 0
            (levelUploads children path_to_sync relative_path remote_prefix)).2 = false →
        (syncLevel st children path_to_sync relative_path remote_prefix force
            name sub ts fuel sched).2.2.all (fun e => !e.isDelete) = true) :=
  ⟨roundStep_conservation,
   fun sched => uploadLoop_complete_all_succeed sched,
   fun sched h fuel round tasks => uploadLoop_all_fail_never_exits sched h fuel round tasks,
   fun st children p rel pre force name sub ts fuel sched h =>
     syncLevel_no_release_when_incomplete st children p rel pre force name sub ts fuel sched h⟩

/-- C5 witness: concrete instances of all four conjuncts. -/
theorem upload_retry_until_all_succeed_witness :
    ((([(tW, Dec.failure)]).map Prod.fst).Perm (successTasks [(tW, false)] ++ [tW])
      ∧ ∀ t, (t, false) ∈ [(tW, false)] → t ∈ [tW])
    ∧ (successTasks [(tW, true)]).Perm [tW]
    ∧ (uploadLoop schedAllFail 3 0 [tW]).2 = false
    ∧ (syncLevel ⟨[]⟩ [("a.txt", FSTree.file "hello")] "root" "root" "pre" true
        "N" "S" "T" 0 schedAllFail).2.2.all (fun e => !e.isDelete) = true :=
  ⟨upload_retry_until_all_succeed.1 [(tW, Dec.failure)] [(tW, false)] [tW] rfl,
   upload_retry_until_all_succeed.2.1 schedAllSuccess 2 0 [tW] [(tW, true)] rfl,
   upload_retry_until_all_succeed.2.2.1 schedAllFail (fun _ _ => rfl) 3 0 [tW] (by decide),
   upload_retry_until_all_succeed.2.2.2 ⟨[]⟩ [("a.txt", FSTree.file "hello")] "root" "root"
     "pre" true "N" "S" "T" 0 schedAllFail rfl⟩

/-- C10: `digest` is independent of filesystem listing order — for any
well-formed tree (distinct sibling names), presenting the same contents in
any two enumeration orders yields byte-identical results (the identical
`Except` value, hence identical manifest text whenever text is
returned), for every digest function, filter and path. -/
theorem digest_independent_of_listing_order (md5hex : String → String)
    (filter_fn : Option (String → Bool)) (path : String) {t tR : FSTree}
    (hr : Reorder t tR) (hwf : NodupNames t) :
    hash_fn md5hex filter_fn path t = hash_fn md5hex filter_fn path tR :=
  hash_fn_reorder md5hex filter_fn hr hwf path

/-- C10 witness: the same two-file directory listed in two orders. -/
theorem digest_independent_of_listing_order_witness :
    hash_fn md5Stub none "root" tOrd1 = hash_fn md5Stub none "root" tOrd2 :=
  digest_independent_of_listing_order md5Stub none "root"
    (Reorder.dir (List.Perm.swap ("a.txt", FSTree.file "1") ("b.txt", FSTree.file "2") [])
      (.cons (.file "1") (.cons (.file "2") .nil)))
    (NodupNames.dir (by decide) (by
      intro p hp
      rcases List.mem_cons.mp hp with rfl | hp'
      · exact .file _
      · rcases List.mem_cons.mp hp' with rfl | h
        · exact .file _
        · cases h))
